import Mathlib

/-!
Shallow embedding of `src/vector.py` (class `Vector`), a library of
n-dimensional geometric vectors.  Coordinates are modelled as real numbers
(the source converts every coordinate to an arbitrary-precision `Decimal`);
Python exceptions are modelled by an error type, and every operation that can
raise returns `Except VecError`.  Each definition carries the line numbers of
the source it embeds.
-/

namespace LinAlg

/-- Modelled from the spec: the repository imports a `constants` module that is
not among the source files; per the error-handling design it holds the
distinct message constants `CANNOT_NORMALIZE_ZERO_VECTOR_MSG`,
`NO_UNIQUE_PARALLEL_COMPONENT_MSG`, `NO_UNIQUE_ORTHOGONAL_COMPONENT_MSG` and
`ONLY_DEFINED_IN_TWO_THREE_DIMS_MSG`.  Those constants, together with the
built-in Python exceptions the methods can raise, are modelled as the
constructors of one error type, distinct by construction. -/
inductive VecError where
  | emptyCoordinates
  | cannotNormalizeZeroVector
  | onlyDefinedInTwoThreeDims
  | attributeError (attr : String)
  | valueError (msg : String)
deriving DecidableEq

/-- The `Vector` class (vector.py:9): an ordered tuple of coordinates. -/
structure Vec where
  coordinates : List ℝ

/-- `self.dimension` (vector.py:17): the number of coordinates. -/
def Vec.dimension (v : Vec) : ℕ :=
  v.coordinates.length

/-- `Vector.__init__` (vector.py:11-23): an empty coordinate sequence is
rejected (`ValueError: The coordinates must not be empty`); otherwise the
coordinates are stored in order.  The `Decimal` conversion is modelled by the
coordinates already being real numbers, and the `TypeError` branch
(non-iterable input) lies outside the embedding, whose inputs are lists. -/
def mkVector (coordinates : List ℝ) : Except VecError Vec :=
  if coordinates.isEmpty then .error .emptyCoordinates else .ok ⟨coordinates⟩

/-- `Vector.magnitude` (vector.py:34-41): square root of the sum of the
squares of the coordinates. -/
noncomputable def Vec.magnitude (v : Vec) : ℝ :=
  Real.sqrt ((v.coordinates.map (fun x => x ^ 2)).sum)

/-- `Vector.times_scalar` (vector.py:219-221): elementwise multiplication by a
scalar, rebuilt through the `Vector` constructor as the source does. -/
noncomputable def Vec.times_scalar (v : Vec) (c : ℝ) : Except VecError Vec :=
  mkVector (v.coordinates.map (fun x => c * x))

/-- `Vector.normalized` (vector.py:43-55): `Decimal('1.0') / magnitude` raises
`ZeroDivisionError` exactly when the magnitude is zero, re-raised as the
cannot-normalize-zero-vector error; otherwise the vector is scaled by the
reciprocal of its magnitude. -/
noncomputable def Vec.normalized (v : Vec) : Except VecError Vec :=
  if v.magnitude = 0 then .error .cannotNormalizeZeroVector
  else v.times_scalar (1 / v.magnitude)

/-- `Vector.dot_product` (vector.py:57-69): sum of the pairwise products of
the two coordinate tuples formed by `zip`.  `zip` stops at the shorter
sequence and never raises `ValueError`, so the `except ValueError` handler at
vector.py:68 is unreachable: mismatched dimensions are silently truncated and
the function is total. -/
noncomputable def Vec.dot_product (v w : Vec) : ℝ :=
  (List.zipWith (fun x y => x * y) v.coordinates w.coordinates).sum

/-- `Vector.is_orthogonal_to` (vector.py:107-115): the body evaluates
`self.dot(v)`, but class `Vector` defines no attribute `dot` (the method is
named `dot_product`), so the attribute lookup raises `AttributeError` before
any arithmetic or comparison happens, whatever the arguments are. -/
def Vec.is_orthogonal_to (v w : Vec) (tolerance : ℝ) : Except VecError Bool :=
  .error (.attributeError "dot")

/-- `Vector.plus` (vector.py:193-206): elementwise sum of the pairs formed by
`zip`, which pairs coordinates only up to the shorter vector; the result is
rebuilt through the `Vector` constructor. -/
noncomputable def Vec.plus (v w : Vec) : Except VecError Vec :=
  mkVector (List.zipWith (fun x y => x + y) v.coordinates w.coordinates)

/-- `Vector.minus` (vector.py:209-217): elementwise difference of the pairs
formed by `zip`, truncating to the shorter vector like `plus`. -/
noncomputable def Vec.minus (v w : Vec) : Except VecError Vec :=
  mkVector (List.zipWith (fun x y => x - y) v.coordinates w.coordinates)

/-- `Vector.component_parallel_to` (vector.py:117-133): normalize the basis,
weight the unit vector by the dot product with `self`.  The handler at
vector.py:129-133 matches the cannot-normalize message and then evaluates
`self.NO_UNIQUE_PARALLEL_COMPONENT_MSG` — an attribute class `Vector` does not
define — so the intended re-raise itself raises `AttributeError`; any other
error is re-raised unchanged. -/
noncomputable def Vec.component_parallel_to (v basis : Vec) : Except VecError Vec :=
  match basis.normalized.bind (fun u => u.times_scalar (v.dot_product u)) with
  | .error .cannotNormalizeZeroVector =>
      .error (.attributeError "NO_UNIQUE_PARALLEL_COMPONENT_MSG")
  | r => r

/-- `Vector.projected_vector` (vector.py:147-156): the same projection
computation, with no handler, so the zero-basis normalization error
propagates unrelabeled. -/
noncomputable def Vec.projected_vector (v b : Vec) : Except VecError Vec :=
  b.normalized.bind (fun bn => bn.times_scalar (v.dot_product bn))

/-- The `ValueError` message raised by the runtime the source quotes verbatim
(Python 2) when a tuple of length `n` is unpacked into three names
(`x, y, z = t` at vector.py:166-167): none when `n = 3`. -/
def unpackMsg (n : ℕ) : Option String :=
  if n = 3 then none
  else if n < 3 then
    some ("need more than " ++ toString n ++
      (if n = 1 then " value to unpack" else " values to unpack"))
  else some "too many values to unpack"

/-- The message of the first failing unpack in `cross_product`'s try block:
`self.coordinates` is unpacked before `v.coordinates` (vector.py:166-167), so
its failure is the one the handler sees. -/
def crossMsg (a b : List ℝ) : String :=
  (unpackMsg a.length).getD ((unpackMsg b.length).getD "")

/-- `Vector.cross_product` (vector.py:158-184): unpack both coordinate triples
and form the standard 3D cross product; on a `ValueError` saying a pair was
one short of three names, append a zero coordinate to both vectors and retry
(the 2D embedding); on the too-many or two-short messages fail with the
only-defined-in-two-or-three-dimensions error; any other `ValueError`
propagates unchanged. -/
noncomputable def Vec.cross_product (v w : Vec) : Except VecError Vec :=
  match hv : v.coordinates, w.coordinates with
  | [x1, y1, z1], [x2, y2, z2] =>
      mkVector [y1 * z2 - y2 * z1, -(x1 * z2 - x2 * z1), x1 * y2 - x2 * y1]
  | a, b =>
      if h : crossMsg a b = "need more than 2 values to unpack" then
        Vec.cross_product ⟨a ++ [0]⟩ ⟨b ++ [0]⟩
      else if crossMsg a b = "too many values to unpack" ∨
          crossMsg a b = "need more than 1 value to unpack" then
        .error .onlyDefinedInTwoThreeDims
      else
        .error (.valueError (crossMsg a b))
termination_by 6 - v.coordinates.length
decreasing_by
  all_goals
    simp only [hv, List.length_append, List.length_cons, List.length_nil]
    have hle : List.length a ≤ 3 := by
      by_contra hgt
      push_neg at hgt
      have hmsg : unpackMsg a.length = some "too many values to unpack" := by
        rw [unpackMsg, if_neg (by omega), if_neg (by omega)]
      rw [crossMsg, hmsg, Option.getD_some] at h
      exact absurd h (by decide)
    omega

/-! ### Helper lemmas -/

lemma mkVector_ok {l : List ℝ} (h : l ≠ []) : mkVector l = .ok ⟨l⟩ := by
  simp [mkVector, h]

lemma sum_sq_nonneg (l : List ℝ) : 0 ≤ (l.map (fun x => x ^ 2)).sum := by
  induction l with
  | nil => simp
  | cons x xs ih =>
    simp only [List.map_cons, List.sum_cons]
    exact add_nonneg (sq_nonneg x) ih

lemma sum_sq_eq_zero_iff (l : List ℝ) :
    (l.map (fun x => x ^ 2)).sum = 0 ↔ ∀ x ∈ l, x = 0 := by
  induction l with
  | nil => simp
  | cons x xs ih =>
    simp only [List.map_cons, List.sum_cons, List.mem_cons]
    rw [add_eq_zero_iff_of_nonneg (sq_nonneg x) (sum_sq_nonneg xs)]
    constructor
    · rintro ⟨h1, h2⟩ y hy
      rcases hy with rfl | hy
      · exact (pow_eq_zero_iff (by norm_num)).mp h1
      · exact ih.mp h2 y hy
    · intro hall
      refine ⟨?_, ih.mpr fun y hy => hall y (Or.inr hy)⟩
      rw [hall x (Or.inl rfl)]
      ring

lemma magnitude_eq_zero_iff (v : Vec) :
    v.magnitude = 0 ↔ ∀ x ∈ v.coordinates, x = 0 := by
  rw [Vec.magnitude, Real.sqrt_eq_zero']
  constructor
  · intro h
    exact (sum_sq_eq_zero_iff _).mp (le_antisymm h (sum_sq_nonneg _))
  · intro h
    exact le_of_eq ((sum_sq_eq_zero_iff _).mpr h)

lemma magnitude_nonneg (v : Vec) : 0 ≤ v.magnitude :=
  Real.sqrt_nonneg _

lemma coordinates_ne_nil_of_magnitude_ne_zero {v : Vec} (h : v.magnitude ≠ 0) :
    v.coordinates ≠ [] := by
  intro hnil
  exact h ((magnitude_eq_zero_iff v).mpr (by rw [hnil]; intro x hx; simp at hx))

lemma normalized_of_magnitude_eq_zero {v : Vec} (h : v.magnitude = 0) :
    v.normalized = .error .cannotNormalizeZeroVector := by
  simp [Vec.normalized, h]

lemma normalized_of_magnitude_ne_zero {v : Vec} (h : v.magnitude ≠ 0) :
    v.normalized = .ok ⟨v.coordinates.map (fun x => (1 / v.magnitude) * x)⟩ := by
  have hne := coordinates_ne_nil_of_magnitude_ne_zero h
  rw [Vec.normalized, if_neg h, Vec.times_scalar, mkVector_ok (by simp [hne])]

lemma magnitude_smul (v : Vec) (c : ℝ) :
    (Vec.mk (v.coordinates.map (fun x => c * x))).magnitude = |c| * v.magnitude := by
  rw [Vec.magnitude, Vec.magnitude]
  simp only [List.map_map, Function.comp_def, mul_pow]
  rw [List.sum_map_mul_left, Real.sqrt_mul (sq_nonneg c), Real.sqrt_sq_eq_abs]

lemma magnitude_three_four : (Vec.mk [3, 4]).magnitude = 5 := by
  have h : (((Vec.mk [3, 4]).coordinates).map (fun x => x ^ 2)).sum = 25 := by
    norm_num
  rw [Vec.magnitude, h, show (25 : ℝ) = 5 ^ 2 by norm_num,
    Real.sqrt_sq (by norm_num : (0 : ℝ) ≤ 5)]

lemma zipWith_getD (f : ℝ → ℝ → ℝ) :
    ∀ (as bs : List ℝ) (i : ℕ), i < (List.zipWith f as bs).length →
      (List.zipWith f as bs).getD i 0 = f (as.getD i 0) (bs.getD i 0)
  | [], _, _, h => by simp at h
  | _ :: _, [], _, h => by simp at h
  | a :: as, b :: bs, 0, _ => by simp
  | a :: as, b :: bs, (i + 1), h => by
    simp only [List.zipWith_cons_cons, List.getD_cons_succ]
    exact zipWith_getD f as bs i (by simpa using h)

lemma exceptBind_ok {α β : Type} (a : α) (f : α → Except VecError β) :
    (Except.ok a : Except VecError α).bind f = f a := rfl

lemma times_scalar_ok {v : Vec} (c : ℝ) (h : v.coordinates ≠ []) :
    v.times_scalar c = .ok ⟨v.coordinates.map (fun x => c * x)⟩ := by
  rw [Vec.times_scalar, mkVector_ok (by simp only [ne_eq, List.map_eq_nil_iff]; exact h)]

lemma exceptBind_error {α β : Type} (e : VecError) (f : α → Except VecError β) :
    (Except.error e : Except VecError α).bind f = Except.error e := rfl

lemma unpackMsg_two : unpackMsg 2 = some "need more than 2 values to unpack" := by
  decide

lemma crossMsg_len2 {a : List ℝ} (b : List ℝ) (ha : a.length = 2) :
    crossMsg a b = "need more than 2 values to unpack" := by
  rw [crossMsg, ha, unpackMsg_two, Option.getD_some]

lemma cross_product_cons3 (x1 y1 z1 x2 y2 z2 : ℝ) :
    (Vec.mk [x1, y1, z1]).cross_product (Vec.mk [x2, y2, z2]) =
      .ok ⟨[y1 * z2 - y2 * z1, -(x1 * z2 - x2 * z1), x1 * y2 - x2 * y1]⟩ := by
  simp only [Vec.cross_product]
  exact mkVector_ok (by simp)

/-! ### The claims -/

/-- Claim C1 (refuted; the code, not the spec, is at fault): `dot_product`
does not fail on mismatched dimensions.  `zip` silently truncates, so
`Vector([1, 2]).dot_product(Vector([1, 2, 3]))` returns the truncated sum of
pairwise products `1*1 + 2*2 = 5` instead of raising; the unreachable
`except ValueError` handler at vector.py:68 records the intended check. -/
theorem dot_product_truncates_on_mismatch :
    (Vec.mk [1, 2]).dot_product (Vec.mk [1, 2, 3]) = 5 := by
  norm_num [Vec.dot_product]

/-- Claim C2: on vectors of unequal dimension `plus` and `minus` do not
raise: they truncate to the shorter vector — the result's dimension is the
minimum of the two dimensions and its leading coordinates are the pairwise
sums (respectively differences); the longer vector's extra coordinates are
discarded. -/
theorem plus_minus_truncate (v w : Vec)
    (hv : v.coordinates ≠ []) (hw : w.coordinates ≠ []) :
    ∃ p m : Vec, v.plus w = .ok p ∧ v.minus w = .ok m ∧
      p.dimension = min v.dimension w.dimension ∧
      m.dimension = min v.dimension w.dimension ∧
      ∀ i, i < min v.dimension w.dimension →
        p.coordinates.getD i 0 = v.coordinates.getD i 0 + w.coordinates.getD i 0 ∧
        m.coordinates.getD i 0 = v.coordinates.getD i 0 - w.coordinates.getD i 0 := by
  have hv' : 0 < v.coordinates.length := List.length_pos.mpr hv
  have hw' : 0 < w.coordinates.length := List.length_pos.mpr hw
  have hp : (List.zipWith (fun x y => x + y) v.coordinates w.coordinates).length
      = min v.dimension w.dimension := by
    rw [List.length_zipWith]; rfl
  have hmn : (List.zipWith (fun x y => x - y) v.coordinates w.coordinates).length
      = min v.dimension w.dimension := by
    rw [List.length_zipWith]; rfl
  have hpos : 0 < min v.dimension w.dimension := lt_min hv' hw'
  refine ⟨⟨_⟩, ⟨_⟩, mkVector_ok (List.ne_nil_of_length_pos (by rw [hp]; exact hpos)),
    mkVector_ok (List.ne_nil_of_length_pos (by rw [hmn]; exact hpos)), hp, hmn, ?_⟩
  intro i hi
  exact ⟨zipWith_getD _ _ _ i (by rw [hp]; exact hi),
    zipWith_getD _ _ _ i (by rw [hmn]; exact hi)⟩

/-- Witness for C2 at the dimension-mismatched pair `Vector([1, 2])`,
`Vector([5])`. -/
theorem plus_minus_truncate_at_mismatch :
    (Vec.mk [1, 2]).coordinates ≠ [] ∧ (Vec.mk [5]).coordinates ≠ [] ∧
      (∃ p m : Vec, (Vec.mk [1, 2]).plus (Vec.mk [5]) = .ok p ∧
        (Vec.mk [1, 2]).minus (Vec.mk [5]) = .ok m ∧
        p.dimension = min (Vec.mk [1, 2]).dimension (Vec.mk [5]).dimension ∧
        m.dimension = min (Vec.mk [1, 2]).dimension (Vec.mk [5]).dimension ∧
        ∀ i, i < min (Vec.mk [1, 2]).dimension (Vec.mk [5]).dimension →
          p.coordinates.getD i 0 =
            (Vec.mk [1, 2]).coordinates.getD i 0 + (Vec.mk [5]).coordinates.getD i 0 ∧
          m.coordinates.getD i 0 =
            (Vec.mk [1, 2]).coordinates.getD i 0 - (Vec.mk [5]).coordinates.getD i 0) :=
  ⟨by simp, by simp, plus_minus_truncate _ _ (by simp) (by simp)⟩

/-- Claim C3 (refuted; the code, not the spec, is at fault): for every pair
of vectors and every tolerance, `is_orthogonal_to` raises `AttributeError`
(class `Vector` has no attribute `dot`; the method is `dot_product`) instead
of returning a Boolean. -/
theorem is_orthogonal_to_always_attribute_error (v w : Vec) (t : ℝ) :
    v.is_orthogonal_to w t = .error (.attributeError "dot") := rfl

/-- Claim C4: the cross product of two 2-dimensional vectors succeeds and
equals the 3D cross product of the two vectors each embedded into 3
dimensions by appending a zero coordinate. -/
theorem cross_product_two_dim_embeds (a b c d : ℝ) :
    ∃ u : Vec, (Vec.mk [a, b]).cross_product (Vec.mk [c, d]) = .ok u ∧
      (Vec.mk [a, b, 0]).cross_product (Vec.mk [c, d, 0]) = .ok u := by
  have h3 := cross_product_cons3 a b 0 c d 0
  have h2 : (Vec.mk [a, b]).cross_product (Vec.mk [c, d]) =
      (Vec.mk [a, b, 0]).cross_product (Vec.mk [c, d, 0]) := by
    rw [Vec.cross_product.eq_def]
    split
    next => simp_all
    next => rw [dif_pos (crossMsg_len2 _ (by simp))]; norm_num
  exact ⟨_, h2.trans h3, h3⟩

/-- Claim C5: `normalized` fails with the cannot-normalize-zero-vector error
exactly when the magnitude is exactly zero; in particular
`Vector([0, 0, 0]).normalized()` fails with it; and every vector of non-zero
magnitude is returned scaled by the reciprocal of its magnitude. -/
theorem normalized_zero_iff_and_scales (v : Vec) :
    (v.normalized = .error .cannotNormalizeZeroVector ↔ v.magnitude = 0) ∧
      (Vec.mk [0, 0, 0]).normalized = .error .cannotNormalizeZeroVector ∧
      (v.magnitude ≠ 0 →
        v.normalized = .ok ⟨v.coordinates.map (fun x => (1 / v.magnitude) * x)⟩) := by
  refine ⟨⟨fun he => ?_, normalized_of_magnitude_eq_zero⟩, ?_,
    fun h => normalized_of_magnitude_ne_zero h⟩
  · by_contra h
    rw [normalized_of_magnitude_ne_zero h] at he
    exact Except.noConfusion he
  · apply normalized_of_magnitude_eq_zero
    rw [magnitude_eq_zero_iff]
    intro x hx
    simpa using hx

/-- Claim C6 (refuted; the code, not the spec, is at fault): at a zero basis
the relabeling handler evaluates the undefined attribute
`self.NO_UNIQUE_PARALLEL_COMPONENT_MSG` (vector.py:131), so
`component_parallel_to` fails with `AttributeError`, not with the
no-unique-parallel-component error; evaluated here at `v = Vector([1, 1])`,
`basis = Vector([0, 0])`. -/
theorem component_parallel_to_zero_basis_attribute_error :
    (Vec.mk [1, 1]).component_parallel_to (Vec.mk [0, 0]) =
      .error (.attributeError "NO_UNIQUE_PARALLEL_COMPONENT_MSG") := by
  have hm : (Vec.mk [0, 0]).magnitude = 0 := by
    rw [magnitude_eq_zero_iff]
    intro x hx
    simpa using hx
  rw [Vec.component_parallel_to, normalized_of_magnitude_eq_zero hm]
  rfl

/-- Claim C8: on a non-zero basis of equal dimension `projected_vector`
computes the same result as `component_parallel_to`; on the zero basis it
fails with the unrelabeled cannot-normalize-zero-vector error. -/
theorem projected_vector_equiv (v b : Vec) :
    (v.dimension = b.dimension → (∃ x ∈ b.coordinates, x ≠ 0) →
        v.projected_vector b = v.component_parallel_to b) ∧
      ((∀ x ∈ b.coordinates, x = 0) →
        v.projected_vector b = .error .cannotNormalizeZeroVector) := by
  constructor
  · intro _ hx
    have hm : b.magnitude ≠ 0 := by
      rw [Ne, magnitude_eq_zero_iff]
      intro hall
      obtain ⟨x, hx1, hx2⟩ := hx
      exact hx2 (hall x hx1)
    have hbn : (Vec.mk (b.coordinates.map (fun x => (1 / b.magnitude) * x))).coordinates ≠ [] := by
      simp only [ne_eq, List.map_eq_nil_iff]
      exact coordinates_ne_nil_of_magnitude_ne_zero hm
    rw [Vec.projected_vector, Vec.component_parallel_to,
      normalized_of_magnitude_ne_zero hm, exceptBind_ok, times_scalar_ok _ hbn]
  · intro hall
    rw [Vec.projected_vector,
      normalized_of_magnitude_eq_zero ((magnitude_eq_zero_iff b).mpr hall),
      exceptBind_error]

/-- Claim C9: the cross product is anti-commutative on 3-dimensional
vectors: `v.cross_product(w)` equals `w.cross_product(v).times_scalar(-1)`. -/
theorem cross_product_anticommutative (x1 y1 z1 x2 y2 z2 : ℝ) :
    (Vec.mk [x1, y1, z1]).cross_product (Vec.mk [x2, y2, z2]) =
      ((Vec.mk [x2, y2, z2]).cross_product (Vec.mk [x1, y1, z1])).bind
        (fun u => u.times_scalar (-1)) := by
  rw [cross_product_cons3, cross_product_cons3, exceptBind_ok,
    Vec.times_scalar, mkVector_ok (by simp)]
  simp only [List.map_cons, List.map_nil, Except.ok.injEq, Vec.mk.injEq,
    List.cons.injEq, and_true]
  refine ⟨by ring, by ring, by ring⟩

/-- Claim C10: for every vector of non-zero magnitude, the magnitude of its
normalization is within 1e-10 of 1 (in the exact-arithmetic model it is
exactly 1). -/
theorem normalized_magnitude_near_one (v : Vec) (h : v.magnitude ≠ 0) :
    ∃ u : Vec, v.normalized = .ok u ∧ |u.magnitude - 1| < 1 / 10 ^ 10 := by
  refine ⟨_, normalized_of_magnitude_ne_zero h, ?_⟩
  rw [magnitude_smul]
  have hm : 0 < v.magnitude := lt_of_le_of_ne (magnitude_nonneg v) (Ne.symm h)
  rw [abs_of_pos (div_pos one_pos hm), one_div, inv_mul_cancel₀ h]
  norm_num

/-- Witness for C10 at `Vector([3, 4])`, whose magnitude is 5. -/
theorem normalized_magnitude_near_one_at_three_four :
    (Vec.mk [3, 4]).magnitude ≠ 0 ∧
      ∃ u : Vec, (Vec.mk [3, 4]).normalized = .ok u ∧
        |u.magnitude - 1| < 1 / 10 ^ 10 :=
  ⟨by rw [magnitude_three_four]; norm_num,
    normalized_magnitude_near_one _ (by rw [magnitude_three_four]; norm_num)⟩

end LinAlg
